import Mathlib

/-!
Verification of the AI-Stock-Trader fleet-control system against its
natural-language specification.

The development shallowly embeds the relevant Python code:
* `NodeAgent` — the agent-side secure data store (`src/node-agent/src/data_store.py`),
* `MgmtServer` — the server-side token broker
  (`src/management-system/backend/app/routers/api_agents.py`),
* `Comms` — the communication manager (`src/node-agent/src/comms.py`),
* `AgentLoop` — the command dispatcher (`src/node-agent/src/agent.py`).

Cryptographic and serialization primitives (Fernet, `json.dumps`/`json.loads`,
SHA-256) are library code, not code of this repository; they are modelled by
their contracts, as injective constructors: encryption is invertible exactly
under the issuing key, canonical JSON serialization round-trips, and the hash
is an idealized collision-free fingerprint of the plaintext.
-/

namespace NodeAgent

/-- Model of a JSON-serializable Python value (the `value` argument of
`set_config`, metric payloads, etc.). Arrays and objects are represented in
cons form (`arrCons`/`objCons` chains ending in `arrNil`/`objNil`), which
covers every JSON value while keeping the recursion plain. -/
inductive Json where
  | null
  | bool (b : Bool)
  | num (n : Int)
  | str (s : String)
  | arrNil
  | arrCons (head : Json) (tail : Json)
  | objNil
  | objCons (key : String) (val : Json) (tail : Json)
  deriving DecidableEq, Repr

/-- Model of the Python strings that flow through the store. A string is
either the canonical `json.dumps(·, sort_keys=True)` output of a JSON value,
a Fernet token produced by encrypting some string under some key, or any
other string (tampered/garbage data), tagged by an arbitrary index. -/
inductive Str where
  | jsonOf (v : Json)
  | cipherOf (key : Nat) (plain : Str)
  | concatOf (a b : Str)
  | raw (n : Nat)
  deriving DecidableEq, Repr

/-- The `_encrypt_data` method: Fernet encryption under the store's key. -/
def encryptData (key : Nat) (s : Str) : Str := .cipherOf key s

/-- The `_decrypt_data` method: Fernet decryption. It succeeds (returns the
original plaintext) exactly on tokens produced under the same key and raises
(modelled as `none`) on anything else. -/
def decryptData (key : Nat) : Str → Option Str
  | .cipherOf k p => if k = key then some p else none
  | _ => none

/-- The `json.dumps(value, sort_keys=True)` call: canonical serialization. -/
def dumps (v : Json) : Str := .jsonOf v

/-- The `json.loads` call: parses exactly the canonical serializations and
raises (modelled as `none`) on any other string. -/
def loads : Str → Option Json
  | .jsonOf v => some v
  | _ => none

/-- The `_calculate_checksum` method: SHA-256 of the plaintext, modelled as an
idealized collision-free fingerprint (the plaintext itself). -/
def calcChecksum (s : Str) : Str := s

/-- A row of the `agent_config` table (minus the `key` column, which is the
association-list key). -/
structure ConfigRow where
  value : Str
  config_type : String
  encrypted : Bool
  checksum : Str
  created_at : Int
  updated_at : Int
  deriving DecidableEq, Repr

/-- A row of the `config_backups` table. -/
structure BackupRow where
  timestamp : Int
  config_type : String
  data : Str
  checksum : Str
  deriving DecidableEq, Repr

/-- A row of the `metrics` table. -/
structure MetricRow where
  timestamp : Int
  metric_type : String
  data : Str
  checksum : Str
  deriving DecidableEq, Repr

/-- A row of the `logs` table. -/
structure LogRow where
  timestamp : Int
  level : String
  logger_name : String
  message : Str
  data : Option Str
  checksum : Str
  deriving DecidableEq, Repr

/-- A row of the `task_logs` table. -/
structure TaskRow where
  task_id : String
  timestamp : Int
  status : String
  command_type : Option String
  data : Str
  checksum : Str
  deriving DecidableEq, Repr

/-- A row of the `module_data` table. -/
structure ModuleRow where
  module_id : String
  timestamp : Int
  data_type : String
  data : Str
  checksum : Str
  deriving DecidableEq, Repr

/-- A row of the `communication_logs` table. -/
structure CommRow where
  timestamp : Int
  direction : String
  message_type : String
  data : Str
  checksum : Str
  deriving DecidableEq, Repr

/-- A row of the `credentials` table. -/
structure CredRow where
  credential_type : String
  identifier : String
  encrypted_value : Str
  metadata : Option Str
  checksum : Str
  created_at : Int
  expires_at : Option Int
  deriving DecidableEq, Repr

/-- The state of the SQLite database as seen through the store's single
connection, together with the Fernet encryption key of the
`SecureDataStore` instance. -/
structure Store where
  fkey : Nat
  agent_config : List (String × ConfigRow)
  config_backups : List BackupRow
  metrics : List MetricRow
  logs : List LogRow
  task_logs : List TaskRow
  module_data : List ModuleRow
  communication_logs : List CommRow
  credentials : List CredRow
  deriving Repr

/-- Look a key up in the `agent_config` table (`SELECT ... WHERE key = ?`). -/
def getAssoc (l : List (String × ConfigRow)) (k : String) : Option ConfigRow :=
  (l.find? (fun p => decide (p.1 = k))).map (·.2)

/-- Upsert semantics of `INSERT OR REPLACE` on the `key` primary key. -/
def setAssoc (l : List (String × ConfigRow)) (k : String) (r : ConfigRow) :
    List (String × ConfigRow) :=
  match l with
  | [] => [(k, r)]
  | (k', r') :: t => if k' = k then (k, r) :: t else (k', r') :: setAssoc t k r

/-- The `_backup_config_change` method: if the key currently exists, append a
`config_backups` row recording the old stored value (as-is) for the audit
trail; otherwise do nothing. -/
def backupConfigChange (st : Store) (key : String) (config_type : String)
    (now : Int) : Store :=
  match getAssoc st.agent_config key with
  | none => st
  | some row =>
      let backup_data : Json :=
        .objCons "key" (.str key)
          (.objCons "action"
            (.str (if config_type = "deleted" then "delete" else "update"))
            (.objCons "original_type" (.str row.config_type)
              (.objCons "encrypted" (.bool row.encrypted) .objNil)))
      let data_json : Str := dumps backup_data
      { st with config_backups := st.config_backups ++
          [ { timestamp := now, config_type := config_type
            , data := encryptData st.fkey data_json
            , checksum := calcChecksum data_json } ] }

/-- The `set_config` method: serialize, optionally encrypt, checksum the
plaintext, back up any previous value, and upsert, keeping the previous
row's `created_at` via the `COALESCE` subquery. Returns `true` on success
(encryption and I/O never fail in the model). -/
def set_config (st : Store) (key : String) (value : Json)
    (config_type : String) (encrypt : Bool) (now : Int) : Bool × Store :=
  let value_json := dumps value
  let stored_value := if encrypt then encryptData st.fkey value_json else value_json
  let checksum := calcChecksum value_json
  let st1 := backupConfigChange st key config_type now
  let created_at :=
    match getAssoc st1.agent_config key with
    | some old => old.created_at
    | none => now
  let row : ConfigRow :=
    { value := stored_value, config_type := config_type, encrypted := encrypt
    , checksum := checksum, created_at := created_at, updated_at := now }
  (true, { st1 with agent_config := setAssoc st1.agent_config key row })

/-- The `get_config` method: look the key up, decrypt if the row is flagged
encrypted, verify the checksum, parse; any missing row, failed decryption,
checksum mismatch, or parse failure yields the caller's default (the Python
code reaches the same outcome through `return default` or the enclosing
`except` block — it never raises). -/
def get_config (st : Store) (key : String) (default : Json) : Json :=
  match getAssoc st.agent_config key with
  | none => default
  | some row =>
      let value_json? : Option Str :=
        if row.encrypted then decryptData st.fkey row.value else some row.value
      match value_json? with
      | none => default
      | some value_json =>
          if calcChecksum value_json ≠ row.checksum then default
          else match loads value_json with
            | some v => v
            | none => default

theorem getAssoc_setAssoc_self (l : List (String × ConfigRow)) (k : String)
    (r : ConfigRow) : getAssoc (setAssoc l k r) k = some r := by
  induction l with
  | nil => simp [setAssoc, getAssoc]
  | cons p t ih =>
      by_cases h : p.1 = k
      · simp [setAssoc, getAssoc, h]
      · simpa [setAssoc, getAssoc, h] using ih

/-- C2: after `set_config(k, v)` returns `true` (with either encryption
setting), `get_config(k, default)` returns a value structurally equal to
`v`: the value round-trips through serialization, optional encryption,
checksumming, and decryption. -/
theorem config_roundtrip (st : Store) (key : String) (value : Json)
    (config_type : String) (encrypt : Bool) (now : Int) (default : Json) :
    (set_config st key value config_type encrypt now).1 = true ∧
    get_config (set_config st key value config_type encrypt now).2 key default
      = value := by
  refine ⟨rfl, ?_⟩
  unfold set_config get_config
  have hkey : ((backupConfigChange st key config_type now).fkey) = st.fkey := by
    unfold backupConfigChange
    cases getAssoc st.agent_config key <;> rfl
  cases encrypt <;>
    simp [getAssoc_setAssoc_self, hkey, decryptData, encryptData, calcChecksum,
      dumps, loads]

theorem backupConfigChange_agent_config (st : Store) (key config_type : String)
    (now : Int) :
    (backupConfigChange st key config_type now).agent_config = st.agent_config := by
  unfold backupConfigChange
  cases getAssoc st.agent_config key <;> rfl

theorem backupConfigChange_fkey (st : Store) (key config_type : String)
    (now : Int) : (backupConfigChange st key config_type now).fkey = st.fkey := by
  unfold backupConfigChange
  cases getAssoc st.agent_config key <;> rfl

/-- C10: `set_config` writes a row whose `value`, `config_type`, `encrypted`
flag, `checksum`, and `updated_at` come from the new write, while
`created_at` is copied from the prior row when the key already exists (the
`COALESCE` subquery) and is the current time only when the key is new. -/
theorem set_config_created_at (st : Store) (key : String) (value : Json)
    (config_type : String) (encrypt : Bool) (now : Int) :
    getAssoc (set_config st key value config_type encrypt now).2.agent_config key
      = some
        { value := if encrypt then encryptData st.fkey (dumps value) else dumps value
        , config_type := config_type
        , encrypted := encrypt
        , checksum := calcChecksum (dumps value)
        , created_at :=
            match getAssoc st.agent_config key with
            | some old => old.created_at
            | none => now
        , updated_at := now } := by
  unfold set_config
  simp [getAssoc_setAssoc_self, backupConfigChange_agent_config,
    backupConfigChange_fkey]

/-! Generic shape of the bulk read paths (`get_metrics`, `get_task_logs`):
SQL filtering, `ORDER BY timestamp DESC`, `LIMIT`, then per-row
decrypt-verify-parse with corrupt rows skipped (`continue`). -/

/-- A query result list: filter, sort, truncate, then decode row by row,
dropping rows whose decode fails. -/
def queryRows {α β : Type} (rows : List α) (sel : α → Bool)
    (le : α → α → Bool) (lim : Nat) (dec : α → Option β) : List β :=
  (((rows.filter sel).mergeSort le).take lim).filterMap dec

theorem queryRows_sound {α β : Type} (rows : List α) (sel : α → Bool)
    (le : α → α → Bool) (lim : Nat) (dec : α → Option β) (o : β)
    (h : o ∈ queryRows rows sel le lim dec) :
    ∃ r, r ∈ rows ∧ sel r = true ∧ dec r = some o := by
  unfold queryRows at h
  rw [List.mem_filterMap] at h
  obtain ⟨r, hr, hdec⟩ := h
  have hr' := List.take_subset _ _ hr
  rw [(List.mergeSort_perm _ le).mem_iff, List.mem_filter] at hr'
  exact ⟨r, hr'.1, hr'.2, hdec⟩

theorem queryRows_complete {α β : Type} (rows : List α) (sel : α → Bool)
    (le : α → α → Bool) (lim : Nat) (dec : α → Option β) (r : α) (o : β)
    (hlim : (rows.filter sel).length ≤ lim)
    (hmem : r ∈ rows) (hm : sel r = true) (hdec : dec r = some o) :
    o ∈ queryRows rows sel le lim dec := by
  unfold queryRows
  have hlen : ((rows.filter sel).mergeSort le).length ≤ lim := by
    rwa [(List.mergeSort_perm _ le).length_eq]
  rw [List.take_of_length_le hlen, List.mem_filterMap]
  refine ⟨r, ?_, hdec⟩
  rw [(List.mergeSort_perm _ le).mem_iff, List.mem_filter]
  exact ⟨hmem, hm⟩

/-- The SQL `WHERE` clause of `get_metrics`: optional `metric_type` and
`since` filters (a falsy argument — `None` — adds no clause). -/
def metricMatches (metric_type : Option String) (since : Option Int)
    (r : MetricRow) : Bool :=
  (match metric_type with
   | some t => decide (r.metric_type = t)
   | none => true) &&
  (match since with
   | some s => decide (s ≤ r.timestamp)
   | none => true)

/-- The per-row body of `get_metrics`: decrypt, recompute the checksum and
compare against the stored one, parse the JSON; any failure skips the row. -/
def metricDecode (fkey : Nat) (r : MetricRow) : Option (Int × String × Json) :=
  match decryptData fkey r.data with
  | none => none
  | some d =>
      if calcChecksum d ≠ r.checksum then none
      else match loads d with
        | some v => some (r.timestamp, r.metric_type, v)
        | none => none

/-- The `get_metrics` method (`ORDER BY timestamp DESC LIMIT ?`, then
decrypt-and-verify with corrupt rows skipped). -/
def get_metrics (st : Store) (metric_type : Option String)
    (since : Option Int) (lim : Nat) : List (Int × String × Json) :=
  queryRows st.metrics (metricMatches metric_type since)
    (fun a b => decide (b.timestamp ≤ a.timestamp)) lim (metricDecode st.fkey)

/-- The SQL `WHERE` clause of `get_task_logs`. -/
def taskMatches (task_id : Option String) (since : Option Int)
    (r : TaskRow) : Bool :=
  (match task_id with
   | some t => decide (r.task_id = t)
   | none => true) &&
  (match since with
   | some s => decide (s ≤ r.timestamp)
   | none => true)

/-- The per-row body of `get_task_logs`. -/
def taskDecode (fkey : Nat) (r : TaskRow) :
    Option (String × Int × String × Option String × Json) :=
  match decryptData fkey r.data with
  | none => none
  | some d =>
      if calcChecksum d ≠ r.checksum then none
      else match loads d with
        | some v => some (r.task_id, r.timestamp, r.status, r.command_type, v)
        | none => none

/-- The `get_task_logs` method. -/
def get_task_logs (st : Store) (task_id : Option String)
    (since : Option Int) (lim : Nat) :
    List (String × Int × String × Option String × Json) :=
  queryRows st.task_logs (taskMatches task_id since)
    (fun a b => decide (b.timestamp ≤ a.timestamp)) lim (taskDecode st.fkey)

/-- C3: `get_config` returns the supplied default — and never raises (the
model is a total function) — when the key is absent, when decryption of an
encrypted row fails, or when the recomputed checksum differs from the stored
one; and the bulk reads return exactly the decodable (untampered) matching
rows: every returned item comes from a valid row, and when the limit covers
the matching rows, every valid matching row's decoding is returned, so
tampered rows are excluded while unrelated valid rows survive. -/
theorem get_config_default_and_corruption_isolation (st : Store) (key : String)
    (d : Json) (metric_type task_id : Option String) (since : Option Int)
    (lim : Nat) :
    (getAssoc st.agent_config key = none → get_config st key d = d) ∧
    (∀ row, getAssoc st.agent_config key = some row → row.encrypted = true →
      decryptData st.fkey row.value = none → get_config st key d = d) ∧
    (∀ row vj, getAssoc st.agent_config key = some row →
      (if row.encrypted then decryptData st.fkey row.value else some row.value)
        = some vj →
      calcChecksum vj ≠ row.checksum → get_config st key d = d) ∧
    (∀ o ∈ get_metrics st metric_type since lim,
      ∃ r, r ∈ st.metrics ∧ metricMatches metric_type since r = true ∧
        metricDecode st.fkey r = some o) ∧
    ((st.metrics.filter (metricMatches metric_type since)).length ≤ lim →
      ∀ r ∈ st.metrics, metricMatches metric_type since r = true →
        ∀ o, metricDecode st.fkey r = some o →
          o ∈ get_metrics st metric_type since lim) ∧
    (∀ o ∈ get_task_logs st task_id since lim,
      ∃ r, r ∈ st.task_logs ∧ taskMatches task_id since r = true ∧
        taskDecode st.fkey r = some o) ∧
    ((st.task_logs.filter (taskMatches task_id since)).length ≤ lim →
      ∀ r ∈ st.task_logs, taskMatches task_id since r = true →
        ∀ o, taskDecode st.fkey r = some o →
          o ∈ get_task_logs st task_id since lim) := by
  refine ⟨?_, ?_, ?_, ?_, ?_, ?_, ?_⟩
  · intro h; simp [get_config, h]
  · intro row hrow henc hdec; simp [get_config, hrow, henc, hdec]
  · intro row vj hrow hvj hck
    unfold get_config
    rw [hrow]
    cases henc : row.encrypted
    · simp only [henc, if_neg Bool.false_ne_true] at hvj ⊢
      cases hvj
      simp [hck]
    · simp only [henc, if_pos rfl] at hvj ⊢
      rw [hvj]
      simp [hck]
  · intro o ho; exact queryRows_sound _ _ _ _ _ _ ho
  · intro hlim r hmem hm o hdec
    exact queryRows_complete _ _ _ _ _ _ _ hlim hmem hm hdec
  · intro o ho; exact queryRows_sound _ _ _ _ _ _ ho
  · intro hlim r hmem hm o hdec
    exact queryRows_complete _ _ _ _ _ _ _ hlim hmem hm hdec

/-! Credential management (`store_credential`, `get_credential`,
`cleanup_expired_credentials`). -/

/-- Log events emitted by the credential read path (`logger.warning` /
`logger.error` calls). -/
inductive CredLogEvent where
  | expiredWarning (credential_type identifier : String)
  | getError (credential_type identifier : String)
  deriving DecidableEq, Repr

/-- The row selector for `WHERE credential_type = ? AND identifier = ?`. -/
def credKeyIs (credential_type identifier : String) (r : CredRow) : Bool :=
  decide (r.credential_type = credential_type ∧ r.identifier = identifier)

/-- The Python expiry guard `if expires_at and time.time() > expires_at:` —
note the truthiness test: a stored `expires_at` of `0.0` (the epoch) is
falsy and skips the expiry branch entirely. -/
def credTruthyExpired (now : Int) (expires_at : Option Int) : Bool :=
  match expires_at with
  | some e => decide (e ≠ 0) && decide (now > e)
  | none => false

/-- The `store_credential` method: encrypt the value (and the metadata
independently), checksum `value + (metadata_json or "")`, and upsert on the
`UNIQUE(credential_type, identifier)` key via `INSERT OR REPLACE`. -/
def store_credential (st : Store) (credential_type identifier : String)
    (value : Str) (metadata : Option Json) (expires_at : Option Int)
    (now : Int) : Bool × Store :=
  let encrypted_value := encryptData st.fkey value
  let metadata_json := metadata.map dumps
  let checksum :=
    match metadata_json with
    | none => calcChecksum value
    | some mj => calcChecksum (.concatOf value mj)
  let row : CredRow :=
    { credential_type := credential_type, identifier := identifier
    , encrypted_value := encrypted_value
    , metadata := metadata_json.map (encryptData st.fkey)
    , checksum := checksum, created_at := now, expires_at := expires_at }
  (true,
    { st with credentials :=
        st.credentials.filter (fun r => !credKeyIs credential_type identifier r)
          ++ [row] })

/-- The `get_credential` method: find the row; on a truthy, past
`expires_at`, log a warning, delete the row, and return `None`; otherwise
decrypt and return the value. The source computes `calculated_checksum` of
the decrypted value and then discards it — there is no comparison against
the stored checksum and no log on mismatch. A decryption failure raises and
is converted to `None` by the enclosing `except`, which logs at error
level. -/
def get_credential (st : Store) (credential_type identifier : String)
    (now : Int) : Option Str × Store × List CredLogEvent :=
  match st.credentials.find? (credKeyIs credential_type identifier) with
  | none => (none, st, [])
  | some row =>
      if credTruthyExpired now row.expires_at then
        let remaining :=
          st.credentials.filter (fun r => !credKeyIs credential_type identifier r)
        (none, { st with credentials := remaining },
          [.expiredWarning credential_type identifier])
      else
        match decryptData st.fkey row.encrypted_value with
        | none => (none, st, [.getError credential_type identifier])
        | some value => (some value, st, [])

/-- The SQL predicate of `cleanup_expired_credentials`:
`expires_at IS NOT NULL AND expires_at < ?`. -/
def credSqlExpired (now : Int) (r : CredRow) : Bool :=
  match r.expires_at with
  | some e => decide (e < now)
  | none => false

/-- The `cleanup_expired_credentials` method: bulk-delete expired rows and
return the count removed. -/
def cleanup_expired_credentials (st : Store) (now : Int) : Nat × Store :=
  let keep := st.credentials.filter (fun r => !credSqlExpired now r)
  (st.credentials.length - keep.length, { st with credentials := keep })

/-- Concrete store used to exhibit the `expires_at = 0` truthiness gap: one
credential whose `expires_at` is the epoch (`0`), squarely in the past. -/
def credZeroStore : Store :=
  { fkey := 1, agent_config := [], config_backups := [], metrics := []
  , logs := [], task_logs := [], module_data := [], communication_logs := []
  , credentials :=
      [ { credential_type := "t", identifier := "i"
        , encrypted_value := .cipherOf 1 (.jsonOf (.str "secret"))
        , metadata := none, checksum := .jsonOf (.str "secret")
        , created_at := 0, expires_at := some 0 } ] }

/-- C5 counterexample: for the stored credential with `expires_at = 0`
(non-null and in the past at time 100), `get_credential` returns the
decrypted value — not `nil` — and does not delete the row, because the
Python guard `if expires_at and ...` treats `0.0` as falsy. -/
theorem get_credential_epoch_expiry_not_deleted :
    (get_credential credZeroStore "t" "i" 100).1
        = some (.jsonOf (.str "secret")) ∧
    (get_credential credZeroStore "t" "i" 100).2.1.credentials
        = credZeroStore.credentials := by
  decide

/-- C5 (amended): a found credential whose `expires_at` is non-null,
nonzero, and in the past is deleted by `get_credential` and `None` is
returned; one with no `expires_at`, a future one, or the falsy `0` is
decrypted and its plaintext returned; and `cleanup_expired_credentials`
removes every row whose `expires_at` is non-null and in the past (including
`0`), keeps every other row, and returns the count deleted. -/
theorem credential_expiry (st : Store) (credential_type identifier : String)
    (now : Int) :
    (∀ row, st.credentials.find? (credKeyIs credential_type identifier)
        = some row →
      (∀ e, row.expires_at = some e → e ≠ 0 → now > e →
        (get_credential st credential_type identifier now).1 = none ∧
        ∀ r ∈ (get_credential st credential_type identifier now).2.1.credentials,
          credKeyIs credential_type identifier r = false) ∧
      (credTruthyExpired now row.expires_at = false →
        ∀ v, row.encrypted_value = encryptData st.fkey v →
          (get_credential st credential_type identifier now).1 = some v)) ∧
    (∀ r ∈ st.credentials, credSqlExpired now r = true →
      r ∉ (cleanup_expired_credentials st now).2.credentials) ∧
    (∀ r ∈ st.credentials, credSqlExpired now r = false →
      r ∈ (cleanup_expired_credentials st now).2.credentials) ∧
    (cleanup_expired_credentials st now).1 =
      st.credentials.length
        - (cleanup_expired_credentials st now).2.credentials.length := by
  refine ⟨?_, ?_, ?_, rfl⟩
  · intro row hrow
    constructor
    · intro e he hne hpast
      have hexp : credTruthyExpired now row.expires_at = true := by
        simp [credTruthyExpired, he, hne, hpast]
      constructor
      · simp [get_credential, hrow, hexp]
      · intro r hr
        simp only [get_credential, hrow, hexp, if_pos] at hr
        simp only [List.mem_filter] at hr
        simpa using hr.2
    · intro hexp v hval
      simp [get_credential, hrow, hexp, hval, encryptData, decryptData]
  · intro r hmem hexp
    intro hr
    simp only [cleanup_expired_credentials, List.mem_filter] at hr
    rw [hexp] at hr
    simp at hr
  · intro r hmem hexp
    simp only [cleanup_expired_credentials, List.mem_filter]
    exact ⟨hmem, by simp [hexp]⟩

/-- Concrete credential row expired at time 50 and the store holding only
that row. -/
def credPastRow : CredRow :=
  { credential_type := "t", identifier := "i"
  , encrypted_value := .cipherOf 1 (.jsonOf (.str "secret"))
  , metadata := none, checksum := .jsonOf (.str "secret")
  , created_at := 0, expires_at := some 50 }

/-- Store holding exactly `credPastRow`. -/
def credPastStore : Store := { credZeroStore with credentials := [credPastRow] }

/-- Witness for `credential_expiry`: at a concrete store holding one
credential expired at time 50 (read at time 100) the read returns `None`
and deletes the row, and the bulk cleanup reports one deletion. -/
theorem credential_expiry_witness :
    (get_credential credPastStore "t" "i" 100).1 = none ∧
    (cleanup_expired_credentials credPastStore 100).1 = 1 := by
  constructor
  · exact (((credential_expiry credPastStore "t" "i" 100).1 credPastRow
      (by decide)).1 50 rfl (by decide) (by decide)).1
  · have h := (credential_expiry credPastStore "t" "i" 100).2.2.2
    simpa using h

/-- Concrete credential row whose stored checksum does not match the hash
of the decrypted value. -/
def credMismatchRow : CredRow :=
  { credential_type := "c", identifier := "i"
  , encrypted_value := .cipherOf 1 (.jsonOf (.str "v"))
  , metadata := none, checksum := .raw 9
  , created_at := 0, expires_at := none }

/-- Store holding exactly `credMismatchRow`. -/
def credMismatchStore : Store :=
  { fkey := 1, agent_config := [], config_backups := [], metrics := []
  , logs := [], task_logs := [], module_data := [], communication_logs := []
  , credentials := [credMismatchRow] }

/-- C6 counterexample: on a credential read with a checksum mismatch, the
plaintext is returned (as the claim says) but no warning — in fact no log
event at all — is emitted: the source computes the checksum of the value
and never compares or logs it. -/
theorem get_credential_mismatch_not_logged :
    (get_credential credMismatchStore "c" "i" 100).1
        = some (.jsonOf (.str "v")) ∧
    (get_credential credMismatchStore "c" "i" 100).2.2
        = ([] : List CredLogEvent) := by
  decide

/-- C6 (amended): on a credential read where the row is found and not
truthy-expired, the decrypted plaintext is returned unconditionally — the
stored checksum is never consulted, so a mismatch neither produces `nil`
nor is logged (no warning is emitted at all). -/
theorem get_credential_ignores_checksum (st : Store)
    (credential_type identifier : String) (now : Int) (row : CredRow)
    (v : Str)
    (hrow : st.credentials.find? (credKeyIs credential_type identifier)
      = some row)
    (hexp : credTruthyExpired now row.expires_at = false)
    (hdec : decryptData st.fkey row.encrypted_value = some v) :
    get_credential st credential_type identifier now = (some v, st, []) := by
  simp [get_credential, hrow, hexp, hdec]

/-- Witness for `get_credential_ignores_checksum` at the concrete
mismatched-checksum store. -/
theorem get_credential_ignores_checksum_witness :
    get_credential credMismatchStore "c" "i" 100
      = (some (.jsonOf (.str "v")), credMismatchStore, []) :=
  get_credential_ignores_checksum credMismatchStore "c" "i" 100 credMismatchRow
    (.jsonOf (.str "v")) (by decide) (by decide) (by decide)

/-! Retention sweep (`_cleanup_old_data`). -/

/-- The `retention_policies` dict of `SecureDataStore.__init__` (days per
logical table, in Python dict insertion order). -/
def retention_policies : List (String × Nat) :=
  [("metrics", 30), ("logs", 7), ("task_logs", 90), ("module_data", 30),
   ("communication", 7)]

/-- The table-name adjustment in `_cleanup_old_data`
(`"config_backups" if table == "config" else table`). -/
def tableNameFor (t : String) : String :=
  if t = "config" then "config_backups" else t

/-- One `DELETE FROM {table} WHERE timestamp < ?` statement against the
schema created by `_create_tables`. A table name that does not exist in the
schema makes sqlite raise `OperationalError` (modelled as `.error`). -/
def deleteOlderThan (st : Store) (table : String) (cutoff : Int) :
    Except String Store :=
  if table = "metrics" then
    .ok { st with metrics :=
      st.metrics.filter fun r => !decide (r.timestamp < cutoff) }
  else if table = "logs" then
    .ok { st with logs :=
      st.logs.filter fun r => !decide (r.timestamp < cutoff) }
  else if table = "task_logs" then
    .ok { st with task_logs :=
      st.task_logs.filter fun r => !decide (r.timestamp < cutoff) }
  else if table = "module_data" then
    .ok { st with module_data :=
      st.module_data.filter fun r => !decide (r.timestamp < cutoff) }
  else if table = "communication_logs" then
    .ok { st with communication_logs :=
      st.communication_logs.filter fun r => !decide (r.timestamp < cutoff) }
  else if table = "config_backups" then
    .ok { st with config_backups :=
      st.config_backups.filter fun r => !decide (r.timestamp < cutoff) }
  else .error ("no such table: " ++ table)

/-- The `for table, retention_days in self.retention_policies.items()` loop
body of `_cleanup_old_data`; the first raising statement aborts the loop
(the enclosing `except` logs the error), leaving the earlier deletes
executed on the connection but the per-sweep `commit` and `VACUUM`
unreached. -/
def cleanupOldDataGo (now : Int) :
    Store → List (String × Nat) → Store × Option String
  | st, [] => (st, none)
  | st, (t, days) :: rest =>
      match deleteOlderThan st (tableNameFor t) (now - (days : Int) * 86400) with
      | .ok st' => cleanupOldDataGo now st' rest
      | .error e => (st, some e)

/-- The `_cleanup_old_data` method. -/
def cleanup_old_data (st : Store) (now : Int) : Store × Option String :=
  cleanupOldDataGo now st retention_policies

/-- A metrics row 10 days outside the 30-day window at sweep time
`40 * 86400`. -/
def oldMetricRow : MetricRow :=
  { timestamp := 0, metric_type := "system"
  , data := .cipherOf 1 (.jsonOf (.num 1)), checksum := .jsonOf (.num 1) }

/-- A metrics row exactly one second inside the 30-day window at sweep time
`40 * 86400`. -/
def freshMetricRow : MetricRow :=
  { timestamp := 40 * 86400 - 30 * 86400 + 1, metric_type := "system"
  , data := .cipherOf 1 (.jsonOf (.num 2)), checksum := .jsonOf (.num 2) }

/-- A communication-log row 33 days outside the 7-day window at sweep time
`40 * 86400`. -/
def oldCommRow : CommRow :=
  { timestamp := 0, direction := "outgoing", message_type := "status_update"
  , data := .cipherOf 1 (.jsonOf (.num 3)), checksum := .jsonOf (.num 3) }

/-- Store used to run the sweep: one stale and one fresh metrics row and
one stale communication-log row. -/
def sweepStore : Store :=
  { fkey := 1, agent_config := [], config_backups := []
  , metrics := [oldMetricRow, freshMetricRow]
  , logs := [], task_logs := [], module_data := []
  , communication_logs := [oldCommRow], credentials := [] }

/-- C4: running `_cleanup_old_data` at time `40 * 86400` on `sweepStore`
deletes the stale metrics row and keeps the fresh one, but the sweep then
executes `DELETE FROM communication` — a table that does not exist (the
table is `communication_logs`) — so sqlite raises, the stale
communication-log row (33 days past its 7-day window) survives every sweep,
and the per-sweep commit and `VACUUM` are never reached. -/
theorem cleanup_sweep_misses_communication_logs :
    (cleanup_old_data sweepStore (40 * 86400)).1.metrics = [freshMetricRow] ∧
    (cleanup_old_data sweepStore (40 * 86400)).1.communication_logs
      = [oldCommRow] ∧
    (cleanup_old_data sweepStore (40 * 86400)).2
      = some "no such table: communication" ∧
    (sweepStore.communication_logs.all
      (fun r => decide (r.timestamp < 40 * 86400 - 7 * 86400))) = true := by
  decide

/-- Config row whose encrypted value does not decrypt. -/
def encBadConfigRow : ConfigRow :=
  { value := .raw 3, config_type := "general", encrypted := true
  , checksum := .raw 3, created_at := 0, updated_at := 0 }

/-- Config row whose checksum mismatches its (unencrypted) value. -/
def misConfigRow : ConfigRow :=
  { value := .jsonOf (.num 1), config_type := "general"
  , encrypted := false, checksum := .jsonOf (.num 2)
  , created_at := 0, updated_at := 0 }

/-- A valid (decryptable, checksum-consistent) metrics row. -/
def goodMetricRow : MetricRow :=
  { timestamp := 5, metric_type := "system"
  , data := .cipherOf 1 (.jsonOf (.num 42)), checksum := .jsonOf (.num 42) }

/-- A valid task-log row. -/
def goodTaskRow : TaskRow :=
  { task_id := "t1", timestamp := 3, status := "completed"
  , command_type := some "status"
  , data := .cipherOf 1 (.jsonOf (.str "ok"))
  , checksum := .jsonOf (.str "ok") }

/-- Store exercising every failure branch of `get_config` and both bulk
reads: a key whose encrypted value does not decrypt, a key whose checksum
mismatches, one valid and one tampered metrics row, and one valid and one
tampered task-log row. -/
def queryStore : Store :=
  { fkey := 1
  , agent_config := [("enc_bad", encBadConfigRow), ("mis", misConfigRow)]
  , config_backups := []
  , metrics :=
      [ goodMetricRow
      , { timestamp := 6, metric_type := "system"
        , data := .raw 0, checksum := .jsonOf (.num 7) } ]
  , logs := [], task_logs :=
      [ goodTaskRow
      , { task_id := "t2", timestamp := 4, status := "completed"
        , command_type := none
        , data := .cipherOf 1 (.jsonOf (.str "bad"))
        , checksum := .jsonOf (.str "tampered") } ]
  , module_data := [], communication_logs := [], credentials := [] }

/-- Witness for `get_config_default_and_corruption_isolation` at
`queryStore`: the three `get_config` failure branches yield the default,
and the valid metrics and task-log rows are returned by the bulk reads
while the tampered ones can only originate from valid rows. -/
theorem corruption_isolation_witness :
    get_config queryStore "missing" .null = .null ∧
    get_config queryStore "enc_bad" .null = .null ∧
    get_config queryStore "mis" .null = .null ∧
    ((5 : Int), "system", Json.num 42) ∈ get_metrics queryStore none none 10 ∧
    ("t1", (3 : Int), "completed", some "status", Json.str "ok")
      ∈ get_task_logs queryStore none none 10 := by
  have H := get_config_default_and_corruption_isolation queryStore "missing"
    .null none none none 10
  have H2 := get_config_default_and_corruption_isolation queryStore "enc_bad"
    .null none none none 10
  have H3 := get_config_default_and_corruption_isolation queryStore "mis"
    .null none none none 10
  refine ⟨H.1 (by decide), ?_, ?_, ?_, ?_⟩
  · exact H2.2.1 encBadConfigRow (by decide) (by decide) (by decide)
  · exact H3.2.2.1 misConfigRow (.jsonOf (.num 1)) (by decide) (by decide)
      (by decide)
  · exact H.2.2.2.2.1 (by decide) goodMetricRow (by decide) (by decide)
      ((5 : Int), "system", Json.num 42) (by decide)
  · exact H.2.2.2.2.2.2 (by decide) goodTaskRow (by decide) (by decide)
      ("t1", (3 : Int), "completed", some "status", Json.str "ok") (by decide)

end NodeAgent

namespace MgmtServer

/-- Plaintext of a registration token. `reg` is the well-formed
`agent_id|address|port|nonce` payload that `split("|")` destructures into
exactly four parts; `other` stands for any decrypted string of a different
shape, on which the destructuring raises `ValueError`. -/
inductive SPayload where
  | reg (agent_id : Nat) (address : String) (port : Nat) (nonce : Nat)
  | other (n : Nat)
  deriving DecidableEq, Repr

/-- A token string presented to `validate_registration_token`: either a
Fernet token produced under some server key, or any other string (which
Fernet rejects). -/
inductive SToken where
  | enc (key : Nat) (payload : SPayload)
  | garbage (n : Nat)
  deriving DecidableEq, Repr

/-- Fernet decryption with the server-held key. -/
def decryptTok (key : Nat) : SToken → Option SPayload
  | .enc k p => if k = key then some p else none
  | .garbage _ => none

/-- A row of the `agents` table. -/
structure AgentRow where
  id : Nat
  name : String
  status : String
  registered_at : Option Int
  deriving DecidableEq, Repr

/-- A row of the `agent_registration_tokens` table. -/
structure TokenRow where
  id : Nat
  agent_id : Nat
  token : SToken
  expires_at : Int
  deriving DecidableEq, Repr

/-- The management database state relevant to registration, together with
the server's `registration_token_encryption_key`. -/
structure ServerState where
  key : Nat
  agents : List AgentRow
  tokens : List TokenRow
  deriving Repr

/-- The two structured 400 errors of `validate_registration_token`:
`"Invalid or malformed token"` (decryption or destructuring failed) and
`"Token is expired or invalid"` (no matching live row). -/
inductive TokenError where
  | invalidOrMalformed
  | expiredOrInvalid
  deriving DecidableEq, Repr

/-- The `POST /agents/validate-token` handler: decrypt and destructure the
token (failure ⇒ "Invalid or malformed token"); look up a row matching
`(agent_id, token)` (missing or past `expires_at` ⇒ "Token is expired or
invalid", leaving the state untouched); otherwise set the agent `active`,
stamp `registered_at`, delete the token row — all committed together — and
return the embedded connection details. -/
def tokenRowMatch (agent_id : Nat) (token : SToken) (r : TokenRow) : Bool :=
  decide (r.agent_id = agent_id ∧ r.token = token)

def validate_registration_token (st : ServerState) (token : SToken)
    (now : Int) : Except TokenError (String × Nat) × ServerState :=
  match decryptTok st.key token with
  | none => (.error .invalidOrMalformed, st)
  | some (.other _) => (.error .invalidOrMalformed, st)
  | some (.reg agent_id address port _) =>
      match st.tokens.find? (tokenRowMatch agent_id token) with
      | none => (.error .expiredOrInvalid, st)
      | some row =>
          if row.expires_at < now then (.error .expiredOrInvalid, st)
          else
            (.ok (address, port),
             { st with
                 agents := st.agents.map fun a =>
                   if a.id = agent_id then
                     { a with status := "active", registered_at := some now }
                   else a
               , tokens := st.tokens.filter fun tr => decide (tr.id ≠ row.id) })

/-- C1: a successful redemption returns the embedded connection details,
makes the agent active with `registered_at` stamped, and deletes the token
row, all in the same call; every later `validate` with the same token value
fails with the uniform "Token is expired or invalid" error while leaving
the state — hence the agent's `active` status — unchanged, and that is the
same error any decryptable token with no matching row receives (a token
that "never existed"). The uniqueness hypothesis says the token value
appears on at most the found row, which holds for issued tokens: each
`pre_register` stores one row with a fresh nonce. -/
theorem validate_token_single_use (st : ServerState) (token : SToken)
    (now now2 : Int) (agent_id : Nat) (address : String) (port nonce : Nat)
    (row : TokenRow)
    (hdec : decryptTok st.key token = some (.reg agent_id address port nonce))
    (hfind : st.tokens.find? (tokenRowMatch agent_id token) = some row)
    (hexp : ¬ row.expires_at < now)
    (huniq : ∀ r ∈ st.tokens, r.token = token → r.id = row.id) :
    (validate_registration_token st token now).1 = .ok (address, port) ∧
    (∀ a ∈ (validate_registration_token st token now).2.agents,
      a.id = agent_id → a.status = "active" ∧ a.registered_at = some now) ∧
    (∀ r ∈ (validate_registration_token st token now).2.tokens,
      r.token ≠ token) ∧
    (validate_registration_token
        (validate_registration_token st token now).2 token now2).1
      = .error .expiredOrInvalid ∧
    (validate_registration_token
        (validate_registration_token st token now).2 token now2).2
      = (validate_registration_token st token now).2 ∧
    (∀ st0 : ServerState, st0.key = st.key →
      (∀ r ∈ st0.tokens, r.token ≠ token) →
      (validate_registration_token st0 token now2).1
        = .error .expiredOrInvalid) := by
  have hres : validate_registration_token st token now =
      (.ok (address, port),
       { st with
           agents := st.agents.map fun a =>
             if a.id = agent_id then
               { a with status := "active", registered_at := some now }
             else a
         , tokens := st.tokens.filter fun tr => decide (tr.id ≠ row.id) }) := by
    simp [validate_registration_token, hdec, hfind, hexp]
  have hnotok : ∀ r ∈ (st.tokens.filter fun tr => decide (tr.id ≠ row.id)),
      r.token ≠ token := by
    intro r hr
    rw [List.mem_filter] at hr
    intro htok
    have hid := huniq r hr.1 htok
    simp [hid] at hr
  have hgone : ∀ st0 : ServerState, st0.key = st.key →
      (∀ r ∈ st0.tokens, r.token ≠ token) →
      validate_registration_token st0 token now2
        = (.error .expiredOrInvalid, st0) := by
    intro st0 hkey hno
    have hnone : st0.tokens.find? (tokenRowMatch agent_id token) = none := by
      rw [List.find?_eq_none]
      intro r hr
      simp only [tokenRowMatch, decide_eq_true_eq, not_and]
      intro _
      exact hno r hr
    have hdec0 : decryptTok st0.key token
        = some (.reg agent_id address port nonce) := by rw [hkey]; exact hdec
    simp [validate_registration_token, hdec0, hnone]
  have hafter := hgone
    { st with
        agents := st.agents.map fun a =>
          if a.id = agent_id then
            { a with status := "active", registered_at := some now }
          else a
      , tokens := st.tokens.filter fun tr => decide (tr.id ≠ row.id) }
    rfl hnotok
  refine ⟨by rw [hres], ?_, ?_, ?_, ?_, ?_⟩
  · rw [hres]
    intro a ha haid
    simp only [List.mem_map] at ha
    obtain ⟨a0, ha0, rfl⟩ := ha
    by_cases h : a0.id = agent_id
    · simp [h]
    · simp only [if_neg h] at haid ⊢
      exact absurd haid h
  · rw [hres]
    exact hnotok
  · rw [hres]
    exact congrArg Prod.fst hafter
  · rw [hres]
    simpa using congrArg Prod.snd hafter
  · intro st0 hk hno
    exact congrArg Prod.fst (hgone st0 hk hno)

/-- A concrete issued-token state: agent 7 pending, one live token row. -/
def oneTokenState : ServerState :=
  { key := 1
  , agents := [{ id := 7, name := "device-7", status := "pending"
               , registered_at := none }]
  , tokens := [{ id := 1, agent_id := 7
               , token := .enc 1 (.reg 7 "10.0.0.1" 8080 99)
               , expires_at := 1000 }] }

/-- Witness for `validate_token_single_use`: agent 7's pending token
redeems once at time 500 (returning the issued connection details and
activating the agent) and the same token value fails with "Token is
expired or invalid" at time 600. -/
theorem validate_token_single_use_witness :
    (validate_registration_token oneTokenState
      (.enc 1 (.reg 7 "10.0.0.1" 8080 99)) 500).1 = .ok ("10.0.0.1", 8080) ∧
    (∀ a ∈ (validate_registration_token oneTokenState
        (.enc 1 (.reg 7 "10.0.0.1" 8080 99)) 500).2.agents,
      a.id = 7 → a.status = "active" ∧ a.registered_at = some 500) ∧
    (validate_registration_token
      (validate_registration_token oneTokenState
        (.enc 1 (.reg 7 "10.0.0.1" 8080 99)) 500).2
      (.enc 1 (.reg 7 "10.0.0.1" 8080 99)) 600).1
      = .error .expiredOrInvalid := by
  have H := validate_token_single_use oneTokenState
    (.enc 1 (.reg 7 "10.0.0.1" 8080 99)) 500 600 7 "10.0.0.1" 8080 99
    { id := 1, agent_id := 7, token := .enc 1 (.reg 7 "10.0.0.1" 8080 99)
    , expires_at := 1000 }
    (by decide) (by decide) (by decide) (by decide)
  exact ⟨H.1, H.2.1, H.2.2.2.1⟩

end MgmtServer

namespace Comms

/-- The `CommunicationManager` fields consulted by the outbound send path:
`self.connected`, `self.websocket is not None`, `self.session is not None`. -/
structure CommsState where
  connected : Bool
  hasWebsocket : Bool
  hasSession : Bool
  deriving DecidableEq, Repr

/-- Transport outcomes supplied by the network: whether `websocket.send`
succeeds if attempted, and whether the HTTP POST returns 200 if attempted. -/
structure NetEnv where
  wsSendOk : Bool
  httpOk : Bool
  deriving DecidableEq, Repr

/-- One transport attempt made by the send path. -/
inductive Attempt where
  | wsSend
  | httpPost
  deriving DecidableEq, Repr

/-- The `_send_websocket_message` method: returns `False` without touching
the transport when there is no live connected socket
(`if not self.websocket or not self.connected`); otherwise performs exactly
one send, returning `False` if the transport raises. -/
def sendWebsocketMessage (st : CommsState) (env : NetEnv) :
    Bool × List Attempt :=
  if !st.hasWebsocket || !st.connected then (false, [])
  else (env.wsSendOk, [.wsSend])

/-- The `_send_http_response` / `_send_http_status` methods: one POST when a
session exists (none otherwise); a non-200 status or a raised exception is
only logged — the attempt list does not depend on the POST's outcome. -/
def sendHttpFallback (st : CommsState) : List Attempt :=
  if st.hasSession then [.httpPost] else []

/-- The delivery policy shared by `send_response` and `send_status_update`:
try the WebSocket send, and on a `False` result fall back to a single HTTP
POST. -/
def sendWithFallback (st : CommsState) (env : NetEnv) : List Attempt :=
  let ws := sendWebsocketMessage st env
  if ws.1 then ws.2 else ws.2 ++ sendHttpFallback st

/-- The `send_response` method's transport attempts (the message body —
type `command_response`, command id, payload, timestamp — does not affect
which attempts are made). -/
def send_response (st : CommsState) (env : NetEnv) : List Attempt :=
  sendWithFallback st env

/-- The `send_status_update` method's transport attempts. -/
def send_status_update (st : CommsState) (env : NetEnv) : List Attempt :=
  sendWithFallback st env

/-- C8: with the HTTP session available (as it is while the manager runs),
the WebSocket send is what happens first whenever a transport attempt is
made at all; exactly one HTTP POST is attempted precisely when the
WebSocket send fails (not connected, socket gone, or transport error);
there is never more than one HTTP attempt; and the attempts made are
independent of the fallback's own outcome — a failed fallback is only
logged, never retried. `send_status_update` follows the identical policy. -/
theorem send_single_fallback (st : CommsState) (env : NetEnv)
    (hs : st.hasSession = true) :
    ((send_response st env).count .httpPost
      = if st.hasWebsocket && st.connected && env.wsSendOk then 0 else 1) ∧
    (send_response st env).count .httpPost ≤ 1 ∧
    (st.hasWebsocket && st.connected = true →
      (send_response st env).head? = some .wsSend) ∧
    (∀ env2 : NetEnv, env2.wsSendOk = env.wsSendOk →
      send_response st env2 = send_response st env) ∧
    send_status_update st env = send_response st env := by
  obtain ⟨c, w, s⟩ := st
  obtain ⟨wok, hok⟩ := env
  subst hs
  refine ⟨?_, ?_, ?_, ?_, rfl⟩
  · cases c <;> cases w <;> cases wok <;> rfl
  · cases c <;> cases w <;> cases wok <;>
      simp [send_response, sendWithFallback, sendWebsocketMessage,
        sendHttpFallback, List.count_cons]
  · intro h
    cases c <;> cases w <;> simp_all
    cases wok <;> rfl
  · intro env2 h2
    obtain ⟨wok2, hok2⟩ := env2
    simp only at h2
    subst h2
    rfl

/-- Witness for `send_single_fallback`: a connected manager whose WebSocket
send fails makes exactly the two attempts, WebSocket first then one HTTP
POST. -/
theorem send_single_fallback_witness :
    send_response
        { connected := true, hasWebsocket := true, hasSession := true }
        { wsSendOk := false, httpOk := false }
      = [.wsSend, .httpPost] ∧
    (send_response
        { connected := true, hasWebsocket := true, hasSession := true }
        { wsSendOk := false, httpOk := false }).count .httpPost = 1 := by
  have H := send_single_fallback
    { connected := true, hasWebsocket := true, hasSession := true }
    { wsSendOk := false, httpOk := false } rfl
  exact ⟨rfl, by rw [H.1]; decide⟩

/-- The network's behaviour during one supervising-loop iteration of
`_websocket_manager`: `_connect_websocket` fails after `dur` seconds; or it
connects after `dur` seconds and the `async for` receive loop runs for
`listen` seconds until the connection closes abnormally (`ConnectionClosed`
raised by the iterator, caught by the inner handler, which resets
`connected` and `websocket`); or it connects and the peer closes *cleanly*
(close code 1000/1001) after `listen` seconds — the `websockets` iterator
swallows `ConnectionClosedOK`, so the `async for` exits normally and
neither exception handler runs. -/
inductive NetOutcome where
  | connectFail (dur : Nat)
  | connectOkThenClose (dur listen : Nat)
  | connectOkThenCleanClose (dur listen : Nat)
  deriving DecidableEq, Repr

/-- The connection-attempt trace of the `while self.running` loop of
`_websocket_manager`, as `(attemptTime, endTime)` pairs. On a connect
failure or an abnormal close, `connected` is reset, the bottom
`if not self.connected` guard fires, the iteration sleeps the constant
`reconnect_interval`, and the next iteration makes the next (single)
attempt. On a *clean* close, however, `connected` stays true: the sleep
guard is skipped, the next iteration skips `_connect_websocket` and
re-enters an immediately-terminating `async for` on the closed socket —
the loop busy-spins from then on, making no further connection attempts
and no waits, so the trace ends with that attempt and later network
outcomes are unreachable. -/
def wsTrace (interval : Nat) : Nat → List NetOutcome → List (Nat × Nat)
  | _, [] => []
  | t, .connectFail d :: rest =>
      (t, t + d) :: wsTrace interval (t + d + interval) rest
  | t, .connectOkThenClose d l :: rest =>
      (t, t + d + l) :: wsTrace interval (t + d + l + interval) rest
  | t, .connectOkThenCleanClose d l :: _ =>
      [(t, t + d + l)]

/-- Outcomes whose iteration leaves `connected = true` (the clean close). -/
def isCleanClose : NetOutcome → Bool
  | .connectOkThenCleanClose _ _ => true
  | _ => false

theorem wsTrace_cons_eq (interval t : Nat) (o : NetOutcome)
    (rest : List NetOutcome) (h : isCleanClose o = false) :
    ∃ e, wsTrace interval t (o :: rest)
        = (t, e) :: wsTrace interval (e + interval) rest ∧ t ≤ e := by
  cases o with
  | connectFail d => exact ⟨t + d, rfl, by omega⟩
  | connectOkThenClose d l => exact ⟨t + d + l, rfl, by omega⟩
  | connectOkThenCleanClose d l => simp [isCleanClose] at h

theorem wsTrace_head_start (interval t : Nat) (o : NetOutcome)
    (rest : List NetOutcome) :
    ∃ e, (wsTrace interval t (o :: rest)).head? = some (t, e) ∧ t ≤ e := by
  cases o with
  | connectFail d => exact ⟨t + d, rfl, by omega⟩
  | connectOkThenClose d l => exact ⟨t + d + l, rfl, by omega⟩
  | connectOkThenCleanClose d l => exact ⟨t + d + l, rfl, by omega⟩

theorem chain_wsTrace_cons (interval t e : Nat) (rest : List NetOutcome)
    (hte : t ≤ e)
    (ih : List.Chain'
      (fun a b : Nat × Nat => b.1 = a.2 + interval ∧ a.1 + interval ≤ b.1)
      (wsTrace interval (e + interval) rest)) :
    List.Chain'
      (fun a b : Nat × Nat => b.1 = a.2 + interval ∧ a.1 + interval ≤ b.1)
      ((t, e) :: wsTrace interval (e + interval) rest) := by
  refine List.chain'_cons'.mpr ⟨?_, ih⟩
  intro y hy
  cases rest with
  | nil => simp [wsTrace] at hy
  | cons o2 r2 =>
      obtain ⟨e2, he2, hte2⟩ := wsTrace_head_start interval (e + interval) o2 r2
      rw [he2] at hy
      simp only [Option.mem_def, Option.some.injEq] at hy
      subst hy
      exact ⟨rfl, by omega⟩

theorem wsTrace_length (interval t0 : Nat) (outs : List NetOutcome)
    (h : ∀ o ∈ outs, isCleanClose o = false) :
    (wsTrace interval t0 outs).length = outs.length := by
  induction outs generalizing t0 with
  | nil => rfl
  | cons o rest ih =>
      have ho := h o (List.mem_cons_self o rest)
      have hrest : ∀ o2 ∈ rest, isCleanClose o2 = false :=
        fun o2 h2 => h o2 (List.mem_cons_of_mem o h2)
      obtain ⟨e, heq, -⟩ := wsTrace_cons_eq interval t0 o rest ho
      rw [heq]
      simp [ih (e + interval) hrest]

theorem wsTrace_stops_after_clean (interval t0 : Nat)
    (pre : List NetOutcome) (d l : Nat) (post post2 : List NetOutcome) :
    wsTrace interval t0 (pre ++ .connectOkThenCleanClose d l :: post)
      = wsTrace interval t0 (pre ++ .connectOkThenCleanClose d l :: post2) := by
  induction pre generalizing t0 with
  | nil => rfl
  | cons p pre' ih =>
      cases p with
      | connectFail dp =>
          exact congrArg (List.cons (t0, t0 + dp)) (ih (t0 + dp + interval))
      | connectOkThenClose dp lp =>
          exact congrArg (List.cons (t0, t0 + dp + lp))
            (ih (t0 + dp + lp + interval))
      | connectOkThenCleanClose dp lp => rfl

/-- C9 counterexample: force a clean WebSocket close (code 1000) at time 5
with the network willing to accept a reconnect afterwards — the trace holds
only the initial attempt. After that close the supervising loop makes no
further connection attempt at all (it busy-spins without ever sleeping,
because `connected` was never reset), refuting "after any WebSocket close
the loop waits the full interval and then makes the next (single)
connection attempt": one iteration's outcome produced no next attempt
instead of exactly one. -/
theorem clean_close_no_reconnect :
    wsTrace 30 0 [.connectOkThenCleanClose 0 5, .connectFail 0] = [(0, 5)] ∧
    (wsTrace 30 0 [.connectOkThenCleanClose 0 5, .connectFail 0]).length
      ≠ [NetOutcome.connectOkThenCleanClose 0 5, .connectFail 0].length := by
  decide

/-- C9 (amended): while the manager is running, attempts are never spaced
more tightly than the constant `reconnect_interval`, and after a connect
failure or an *abnormal* close (one that raises `ConnectionClosed` out of
the receive loop) the loop waits exactly one full interval and then makes
exactly one next attempt (no exponential backoff). After a *clean* close,
however, the `websockets` iterator swallows `ConnectionClosedOK`,
`connected` stays true, and the loop makes no further connection attempts
(and no waits) at all — the trace is unaffected by any later network
outcome. -/
theorem reconnect_cadence_amended (interval t0 : Nat) (outs : List NetOutcome) :
    List.Chain'
      (fun a b : Nat × Nat => b.1 = a.2 + interval ∧ a.1 + interval ≤ b.1)
      (wsTrace interval t0 outs) ∧
    ((∀ o ∈ outs, isCleanClose o = false) →
      (wsTrace interval t0 outs).length = outs.length) ∧
    (∀ (pre : List NetOutcome) (d l : Nat) (post post2 : List NetOutcome),
      wsTrace interval t0 (pre ++ .connectOkThenCleanClose d l :: post)
        = wsTrace interval t0 (pre ++ .connectOkThenCleanClose d l :: post2)) := by
  refine ⟨?_, wsTrace_length interval t0 outs,
    fun pre d l post post2 => wsTrace_stops_after_clean interval t0 pre d l post post2⟩
  induction outs generalizing t0 with
  | nil => simp [wsTrace]
  | cons o rest ih =>
      cases o with
      | connectFail d =>
          exact chain_wsTrace_cons interval t0 (t0 + d) rest (by omega) (ih _)
      | connectOkThenClose d l =>
          exact chain_wsTrace_cons interval t0 (t0 + d + l) rest (by omega) (ih _)
      | connectOkThenCleanClose d l => simp [wsTrace]

/-- Witness for `reconnect_cadence_amended`: a clean-close-free run of two
failing iterations has one attempt per iteration with the interval cadence,
and a run hitting a clean close is unchanged by whatever the network would
have offered afterwards. -/
theorem reconnect_cadence_amended_witness :
    (wsTrace 30 0 [.connectFail 2, .connectOkThenClose 1 3]).length = 2 ∧
    List.Chain'
      (fun a b : Nat × Nat => b.1 = a.2 + 30 ∧ a.1 + 30 ≤ b.1)
      (wsTrace 30 0 [.connectFail 2, .connectOkThenClose 1 3]) ∧
    wsTrace 30 0 [.connectOkThenCleanClose 0 5, .connectFail 0]
      = wsTrace 30 0 [.connectOkThenCleanClose 0 5] := by
  have H := reconnect_cadence_amended 30 0 [.connectFail 2, .connectOkThenClose 1 3]
  exact ⟨H.2.1 (by decide), H.1, H.2.2 [] 0 5 [.connectFail 0] []⟩

end Comms

namespace AgentLoop

open NodeAgent (Json)

/-- A command dict as drained from the pending queue: `command.get("id")`
and `command.get("type")` (absent keys give `None`; the payload under
`"config"` does not influence whether a response is emitted). -/
structure Command where
  id : Option String
  ctype : Option String
  deriving DecidableEq, Repr

/-- The agent fields and collaborator outcomes `handle_command` consults:
which components are non-`None`, and what the dispatched handler produces —
`.ok` a result dict, or `.error` for an exception propagating out of the
handler into the method's `except` block. -/
structure AgentEnv where
  hasComms : Bool
  hasDataStore : Bool
  hasModuleManager : Bool
  hasResourceMonitor : Bool
  statusResult : Json
  runModuleResult : Except String Json
  metricsResult : Json
  deriving Repr

/-- Python truthiness of `command_id` (`if self.comms and command_id:`):
`None` and the empty string are falsy. -/
def pyTruthyId : Option String → Bool
  | none => false
  | some s => decide (s ≠ "")

/-- The `if/elif` dispatch over `command.get("type")` in `handle_command`:
unknown or missing types produce an error *result* (not an exception);
handler exceptions surface as `.error`. -/
def dispatchResult (env : AgentEnv) (cmd : Command) : Except String Json :=
  match cmd.ctype with
  | some "status" => .ok env.statusResult
  | some "run_module" =>
      if env.hasModuleManager then env.runModuleResult
      else .ok (.objCons "error" (.str "Module manager not available") .objNil)
  | some "get_metrics" =>
      if env.hasResourceMonitor then
        .ok (.objCons "metrics" env.metricsResult .objNil)
      else .ok (.objCons "error" (.str "Resource monitor not available") .objNil)
  | some "update_config" =>
      .ok (.objCons "status" (.str "config_updated") .objNil)
  | _ => .ok (.objCons "error" (.str "Unknown command type") .objNil)

/-- A `task_logs` entry written by `handle_command`. -/
structure TaskLogEntry where
  task_id : String
  status : String
  deriving DecidableEq, Repr

/-- The externally visible effects of one `handle_command` call. -/
structure HandleResult where
  commLogged : Bool
  response : Option (String × Json)
  taskLog : Option TaskLogEntry
  deriving DecidableEq, Repr

/-- The `handle_command` method of the agent: log the incoming command,
dispatch by type, send the result back iff `self.comms and command_id` is
truthy (same guard on the success and the exception path), and write a
`completed` (success, task id `command_id or "unknown"`) or `failed`
(exception, task id `command.get("id", "unknown")`) task log when the data
store is available. -/
def handle_command (env : AgentEnv) (cmd : Command) : HandleResult :=
  let commLogged := env.hasDataStore
  match dispatchResult env cmd with
  | .ok result =>
      let sendIt := env.hasComms && pyTruthyId cmd.id
      { commLogged := commLogged
      , response :=
          if sendIt then some (cmd.id.getD "", result) else none
      , taskLog :=
          if env.hasDataStore then
            some { task_id := if pyTruthyId cmd.id then cmd.id.getD "" else "unknown"
                 , status := "completed" }
          else none }
  | .error e =>
      let sendIt := env.hasComms && pyTruthyId cmd.id
      { commLogged := commLogged
      , response :=
          if sendIt then
            some (cmd.id.getD "", .objCons "error" (.str e) .objNil)
          else none
      , taskLog :=
          if env.hasDataStore then
            some { task_id := cmd.id.getD "unknown", status := "failed" }
          else none }

/-- A fully wired agent (all components present) with trivial handler
outcomes. -/
def allOnEnv : AgentEnv :=
  { hasComms := true, hasDataStore := true, hasModuleManager := true
  , hasResourceMonitor := true, statusResult := .null
  , runModuleResult := .ok .null, metricsResult := .null }

/-- C7 counterexample: a command that carries an id — the empty string —
is executed and task-logged but no response is emitted, because the guard
`if self.comms and command_id:` tests Python truthiness, not presence. -/
theorem handle_command_empty_id_no_response :
    (handle_command allOnEnv { id := some "", ctype := some "status" }).response
      = none ∧
    ({ id := some "", ctype := some "status" } : Command).id ≠ none ∧
    (handle_command allOnEnv { id := some "", ctype := some "status" }).taskLog
      ≠ none := by
  decide

/-- C7 (amended): with the communication manager present, a response
(success or error) is sent back if and only if the originating command
carried a *truthy* (present and non-empty) id; in particular a command
without an id is still dispatched and task-logged (when the data store is
present) but no response is emitted. -/
theorem handle_command_response_iff_truthy_id (env : AgentEnv) (cmd : Command)
    (hc : env.hasComms = true) :
    ((handle_command env cmd).response ≠ none ↔ pyTruthyId cmd.id = true) ∧
    (cmd.id = none → (handle_command env cmd).response = none) ∧
    ((handle_command env cmd).taskLog ≠ none ↔ env.hasDataStore = true) := by
  refine ⟨?_, ?_, ?_⟩
  · unfold handle_command
    cases hdr : dispatchResult env cmd <;>
      cases ht : pyTruthyId cmd.id <;> simp [hc, ht]
  · intro hid
    have ht : pyTruthyId cmd.id = false := by rw [hid]; rfl
    unfold handle_command
    cases hdr : dispatchResult env cmd <;> simp [hc, ht]
  · unfold handle_command
    cases hdr : dispatchResult env cmd <;>
      cases hds : env.hasDataStore <;> simp [hds]

/-- Witness for `handle_command_response_iff_truthy_id`: a `status` command
with id `"c1"` gets a response and an id-less command gets none while still
being task-logged. -/
theorem handle_command_response_witness :
    (handle_command allOnEnv { id := some "c1", ctype := some "status" }).response
      ≠ none ∧
    (handle_command allOnEnv { id := none, ctype := some "status" }).response
      = none ∧
    (handle_command allOnEnv { id := none, ctype := some "status" }).taskLog
      ≠ none := by
  refine ⟨?_, ?_, ?_⟩
  · exact (handle_command_response_iff_truthy_id allOnEnv
      { id := some "c1", ctype := some "status" } rfl).1.mpr (by decide)
  · exact (handle_command_response_iff_truthy_id allOnEnv
      { id := none, ctype := some "status" } rfl).2.1 rfl
  · exact (handle_command_response_iff_truthy_id allOnEnv
      { id := none, ctype := some "status" } rfl).2.2.mpr rfl

end AgentLoop
